import Mathlib

/-
Shallow embedding of the Flyte intro training workflow
(kubecon-2022/workflows/example_00_intro.py).

The script wires four stages into a pipeline:
  get_data, split_data, train_model, evaluate.

External library calls are modelled as follows, faithful to their
documented/actual behaviour:

* A pandas DataFrame is a `Frame`: a list of column names together with a
  list of rows; a row is a total function from column name to `Value`
  (`Value.na` standing for a missing value / NaN and for absent columns).

* `load_penguins()` is an external data fetch; the raw table it returns is
  a parameter (`raw : Frame`) of the embedded pipeline.

* `sklearn.model_selection.train_test_split(data, test_size, random_state)`
  (defaults: shuffle=True, stratify=None, train_size=None) validates that a
  float test_size lies in (0,1), computes n_test = ceil(test_size * n) and
  n_train = n - n_test, raises when n_train = 0, and otherwise draws a
  permutation of the indices 0..n-1 from a PRNG seeded with random_state,
  returning rows permutation[n_test : n_test+n_train] as the train part and
  rows permutation[:n_test] as the test part.  numpy's seeded permutation is
  a deterministic function of (seed, n); it is modelled by an explicit
  function parameter `perm : ℤ → ℕ → List ℕ`, with the hypothesis that
  `perm seed n` is a permutation of `range n` where a theorem needs it.
  Errors are modelled by `Option` (`none` = the library raised).

* `LogisticRegression(**hyperparameters).fit(X, y)` is an opaque fitting
  routine; it is modelled by a function parameter `fit` receiving the
  hyperparameters, the feature matrix and the target column, and returning
  a `Model`, i.e. a prediction function from a feature row to a value.

* `sklearn.metrics.accuracy_score(y_true, y_pred)` is the fraction of
  positions where the two sequences agree.
-/

namespace FlyteIntro

/-- A cell of a table: a number, a string, or a missing value (NaN). -/
inductive Value where
  | num (q : ℚ)
  | str (s : String)
  | na
deriving DecidableEq

instance : Inhabited Value := ⟨Value.na⟩

/-- A row of a table: a total assignment of a `Value` to every column name
(`Value.na` on columns the table does not have). -/
abbrev Row := String → Value

/-- A pandas DataFrame: named columns and a list of rows. -/
structure Frame where
  cols : List String
  rows : List Row

/-- `TARGET = "species"` from the script. -/
def TARGET : String := "species"

/-- `FEATURES` from the script. -/
def FEATURES : List String :=
  ["bill_length_mm", "bill_depth_mm", "flipper_length_mm", "body_mass_g"]

/-- `df[[c1, ..., ck]]`: keep only the listed columns. -/
def selectColumns (cs : List String) (f : Frame) : Frame :=
  ⟨cs, f.rows.map (fun r c => if c ∈ cs then r c else Value.na)⟩

/-- `df.dropna()`: drop every row having a missing value in some column of
the frame. -/
def dropna (f : Frame) : Frame :=
  ⟨f.cols, f.rows.filter (fun r => decide (∀ c ∈ f.cols, r c ≠ Value.na))⟩

/-- Task `get_data`: `load_penguins()[[TARGET] + FEATURES].dropna()`.
The raw table returned by the external `load_penguins()` call is the
argument. -/
def get_data (raw : Frame) : Frame :=
  dropna (selectColumns (TARGET :: FEATURES) raw)

/-- The seeded index permutation drawn by `train_test_split`:
`check_random_state(random_state).permutation(n)`, a deterministic
function of the seed and of n. -/
abbrev PermSource := ℤ → ℕ → List ℕ

/-- Task `split_data`:
`train_test_split(data, test_size=test_size, random_state=random_state)`,
modelled per sklearn's implementation for a float `test_size` (shuffle
on, no stratification, train_size=None).  `none` models a raised
`ValueError`. -/
def split_data (perm : PermSource) (data : Frame) (test_size : ℚ)
    (random_state : ℤ) : Option (Frame × Frame) :=
  let n := data.rows.length
  if test_size ≤ 0 ∨ 1 ≤ test_size then none
  else
    let nTest : ℕ := (⌈test_size * (n : ℚ)⌉).toNat
    let nTrain : ℕ := n - nTest
    if nTrain = 0 then none
    else
      let p := perm random_state n
      some (⟨data.cols, ((p.drop nTest).take nTrain).filterMap
                (fun i => data.rows[i]?)⟩,
            ⟨data.cols, (p.take nTest).filterMap (fun i => data.rows[i]?)⟩)

/-- A fitted model: an opaque prediction function from a feature row to a
predicted target value. -/
abbrev Model := List Value → Value

/-- The feature cells of a row, in `FEATURES` order (`data[FEATURES]` for
one row). -/
def featureRow (r : Row) : List Value := FEATURES.map (fun c => r c)

/-- The opaque external fitting routine
`LogisticRegression(**hyperparameters).fit(X, y)`. -/
abbrev FitSource := List (String × ℚ) → List (List Value) → List Value → Model

/-- Task `train_model`:
`LogisticRegression(**hyperparameters).fit(data[FEATURES], data[TARGET])`. -/
def train_model (fit : FitSource) (data : Frame)
    (hyperparameters : List (String × ℚ)) : Model :=
  fit hyperparameters (data.rows.map featureRow)
    (data.rows.map (fun r => r TARGET))

/-- `sklearn.metrics.accuracy_score(y_true, y_pred)`: fraction of positions
where the two sequences agree. -/
def accuracy_score (yTrue yPred : List Value) : ℚ :=
  (((yTrue.zip yPred).countP (fun p => decide (p.1 = p.2)) : ℕ) : ℚ) /
    (yTrue.length : ℚ)

/-- Task `evaluate`:
`accuracy_score(data[TARGET], model.predict(data[FEATURES]))`. -/
def evaluate (model : Model) (data : Frame) : ℚ :=
  accuracy_score (data.rows.map (fun r => r TARGET))
    (data.rows.map (fun r => model (featureRow r)))

/-- Workflow `training_workflow`, composed exactly as the script does. -/
def training_workflow (perm : PermSource) (fit : FitSource) (raw : Frame)
    (hyperparameters : List (String × ℚ)) (test_size : ℚ)
    (random_state : ℤ) : Option (Model × ℚ × ℚ) :=
  let data := get_data raw
  match split_data perm data test_size random_state with
  | none => none
  | some (train_data, test_data) =>
    let model := train_model fit train_data hyperparameters
    let train_acc := evaluate model train_data
    let test_acc := evaluate model test_data
    some (model, train_acc, test_acc)

/-- Default value of the `hyperparameters` parameter:
`{"C": 0.1, "max_iter": 5000}`. -/
def default_hyperparameters : List (String × ℚ) :=
  [("C", 1/10), ("max_iter", 5000)]

/-- Default value of the `test_size` parameter. -/
def default_test_size : ℚ := 1/5

/-- Default value of the `random_state` parameter. -/
def default_random_state : ℤ := 42

/-- `training_workflow()` invoked with no arguments (the `__main__`
entry point). -/
def training_workflow_noargs (perm : PermSource) (fit : FitSource)
    (raw : Frame) : Option (Model × ℚ × ℚ) :=
  training_workflow perm fit raw default_hyperparameters default_test_size
    default_random_state

/-- The identity reading of numpy's seeded permutation, used as a concrete
instance of `PermSource` for concrete runs. -/
def permId : PermSource := fun _ n => List.range n

/-- A concrete fully-populated penguin row. -/
def rowOf (sp : String) (x : ℚ) : Row := fun c =>
  if c = TARGET then Value.str sp
  else if c ∈ FEATURES then Value.num x else Value.na

/-- A concrete one-row dataset. -/
def frame1 : Frame := ⟨TARGET :: FEATURES, [rowOf "Adelie" 1]⟩

/-- A concrete raw penguins-like row, complete in the five used columns,
with an island value and a missing sex value. -/
def rawRowB : Row := fun c =>
  if c = TARGET then Value.str "Adelie"
  else if c ∈ FEATURES then Value.num 2
  else if c = "island" then Value.str "Dream" else Value.na

/-- A concrete raw table with the two extra columns of the source dataset. -/
def frameRaw : Frame :=
  ⟨(TARGET :: FEATURES) ++ ["island", "sex"], [rawRowB]⟩

/-- `rawRowB` masked to the five selected columns, as `get_data` keeps it. -/
def maskedRowB : Row :=
  fun c => if c ∈ TARGET :: FEATURES then rawRowB c else Value.na

/-- A concrete five-row dataset. -/
def frame5 : Frame :=
  ⟨TARGET :: FEATURES,
    [rowOf "Adelie" 1, rowOf "Gentoo" 2, rowOf "Adelie" 3,
      rowOf "Chinstrap" 4, rowOf "Gentoo" 5]⟩

/-- The train partition of `frame5` under `permId`, fraction 1/5, seed 42. -/
def frame5train : Frame :=
  ⟨TARGET :: FEATURES,
    [rowOf "Gentoo" 2, rowOf "Adelie" 3, rowOf "Chinstrap" 4,
      rowOf "Gentoo" 5]⟩

/-- The test partition of `frame5` under `permId`, fraction 1/5, seed 42. -/
def frame5test : Frame := ⟨TARGET :: FEATURES, [rowOf "Adelie" 1]⟩

/-- A concrete one-row dataset carrying an extra island column on top of
the five used columns of `frame1`. -/
def frame1extra : Frame :=
  ⟨(TARGET :: FEATURES) ++ ["island"],
    [fun c => if c = "island" then Value.str "Dream" else rowOf "Adelie" 1 c]⟩

/-- A constant classifier, a concrete instance of an opaque fitted model. -/
def modelK : Model := fun _ => Value.str "Adelie"

/-- A constant fitting routine, a concrete instance of `FitSource`. -/
def fitK : FitSource := fun _ _ _ => modelK

/-- Claim C1: for every input (hyperparameters, test_size, random_state) —
and every raw table, RNG and fitting routine — `training_workflow` composes
the stages as data = get_data(); (train, test) = split_data(data, ...);
model = train_model(train, hyperparameters); and returns
(model, evaluate(model, train), evaluate(model, test)), both evaluations
applied to the same trained model; a split failure propagates. -/
theorem training_workflow_composes (perm : PermSource) (fit : FitSource)
    (raw : Frame) (hp : List (String × ℚ)) (ts : ℚ) (rs : ℤ) :
    training_workflow perm fit raw hp ts rs =
      match split_data perm (get_data raw) ts rs with
      | none => none
      | some (train_data, test_data) =>
        some (train_model fit train_data hp,
          evaluate (train_model fit train_data hp) train_data,
          evaluate (train_model fit train_data hp) test_data) := by
  cases hs : split_data perm (get_data raw) ts rs with
  | none => simp only [training_workflow, hs]
  | some pair => cases pair with
    | mk train_data test_data => simp only [training_workflow, hs]

/-- Claim C8: invoked with no arguments, the workflow runs with
hyperparameters {"C": 0.1, "max_iter": 5000}, test split fraction 0.2 and
random seed 42. -/
theorem training_workflow_default_arguments (perm : PermSource)
    (fit : FitSource) (raw : Frame) :
    training_workflow_noargs perm fit raw =
      training_workflow perm fit raw [("C", 1/10), ("max_iter", 5000)]
        (1/5) 42 ∧
    default_hyperparameters = [("C", 1/10), ("max_iter", 5000)] ∧
    default_test_size = 1/5 ∧ default_random_state = 42 := by
  exact ⟨rfl, rfl, rfl, rfl⟩

/-- Claim C5: `split_data` is deterministic — two calls with identical
dataset, split fraction and seed (and the same library RNG) return
identical train/test partitions. -/
theorem split_data_deterministic (perm : PermSource) (d₁ d₂ : Frame)
    (ts₁ ts₂ : ℚ) (rs₁ rs₂ : ℤ) (hd : d₁ = d₂) (hts : ts₁ = ts₂)
    (hrs : rs₁ = rs₂) :
    split_data perm d₁ ts₁ rs₁ = split_data perm d₂ ts₂ rs₂ := by
  rw [hd, hts, hrs]

/-- `evaluate` as a fraction: matching rows over total rows.  (The zip of
the target column with the prediction column pairs each row's true target
with its prediction.) -/
theorem evaluate_eq (model : Model) (data : Frame) :
    evaluate model data =
      ((data.rows.countP
          (fun r => decide (r TARGET = model (featureRow r))) : ℕ) : ℚ) /
        (data.rows.length : ℚ) := by
  unfold evaluate accuracy_score
  rw [List.zip_map', List.countP_map, List.length_map]
  rfl

/-- Claim C3: `evaluate` returns exactly the fraction of rows whose true
target value equals the model's prediction, and that value lies in [0, 1]
(on a dataset with at least one row; on zero rows the fraction 0/0 is not
defined by the underlying scoring routine). -/
theorem evaluate_fraction_in_unit_interval (model : Model) (data : Frame)
    (h : 0 < data.rows.length) :
    evaluate model data =
      ((data.rows.countP
          (fun r => decide (r TARGET = model (featureRow r))) : ℕ) : ℚ) /
        (data.rows.length : ℚ) ∧
    0 ≤ evaluate model data ∧ evaluate model data ≤ 1 := by
  refine ⟨evaluate_eq model data, ?_, ?_⟩
  · rw [evaluate_eq]
    positivity
  · rw [evaluate_eq, div_le_one (by exact_mod_cast h)]
    exact_mod_cast List.countP_le_length _

/-- Claim C6: `get_data` returns a table whose columns are exactly the
target column followed by the four feature columns, and no cell of any
returned row in those columns is a missing value. -/
theorem get_data_columns_and_no_missing (raw : Frame) :
    (get_data raw).cols = TARGET :: FEATURES ∧
    ∀ r ∈ (get_data raw).rows, ∀ c ∈ TARGET :: FEATURES, r c ≠ Value.na := by
  refine ⟨rfl, ?_⟩
  intro r hr c hc
  simp only [get_data, dropna, selectColumns] at hr
  have hp := List.of_mem_filter hr
  exact of_decide_eq_true hp c hc

/-- Claim C9: selection happens before `dropna`, so `get_data` keeps
exactly those raw rows with no missing value among the five selected
columns (masked to those columns), in order; a missing value in any other
column of the raw table is irrelevant. -/
theorem get_data_filters_on_selected_columns (raw : Frame) :
    (get_data raw).rows =
      (raw.rows.filter
          (fun r => decide (∀ c ∈ TARGET :: FEATURES, r c ≠ Value.na))).map
        (fun r c => if c ∈ TARGET :: FEATURES then r c else Value.na) := by
  simp only [get_data, dropna, selectColumns]
  rw [List.filter_map]
  congr 1
  apply List.filter_congr
  intro r _
  simp only [Function.comp, decide_eq_decide]
  constructor
  · intro h c hc
    have hrc := h c hc
    rwa [if_pos hc] at hrc
  · intro h c hc
    rw [if_pos hc]
    exact h c hc

/-- Reading every index of a list in order reproduces the list. -/
theorem filterMap_getElem_range (l : List α) :
    (List.range l.length).filterMap (fun i => l[i]?) = l := by
  induction l with
  | nil => rfl
  | cons a t ih =>
    rw [List.length_cons, List.range_succ_eq_map, List.filterMap_cons]
    simp only [List.getElem?_cons_zero, List.filterMap_map]
    have hc : ((fun i => (a :: t)[i]?) ∘ Nat.succ) = fun i => t[i]? := by
      funext i
      simp [List.getElem?_cons_succ]
    rw [hc, ih]

/-- Reading a list at a sequence of in-bounds indices yields one row per
index. -/
theorem length_filterMap_getElem (l : List α) (idx : List ℕ)
    (h : ∀ i ∈ idx, i < l.length) :
    (idx.filterMap (fun i => l[i]?)).length = idx.length := by
  induction idx with
  | nil => rfl
  | cons i t ih =>
    rw [List.filterMap_cons_some
          (List.getElem?_eq_getElem (h i (List.mem_cons_self i t)))]
    rw [List.length_cons, List.length_cons,
      ih (fun j hj => h j (List.mem_cons_of_mem i hj))]

/-- Rows read at the dropped indices followed by rows read at the taken
indices of a permutation of all indices are a permutation of the list. -/
theorem perm_take_drop_filterMap (l : List α) (p : List ℕ) (k : ℕ)
    (hp : p.Perm (List.range l.length)) :
    (((p.drop k).take (l.length - k)).filterMap (fun i => l[i]?) ++
        (p.take k).filterMap (fun i => l[i]?)).Perm l := by
  have hlen : p.length = l.length := hp.length_eq.trans (List.length_range _)
  have hdrop : (p.drop k).take (l.length - k) = p.drop k := by
    have hdl : (p.drop k).length = l.length - k := by
      rw [List.length_drop, hlen]
    rw [← hdl, List.take_length]
  rw [hdrop, ← List.filterMap_append]
  have hidx : (p.drop k ++ p.take k).Perm (List.range l.length) := by
    refine List.Perm.trans List.perm_append_comm ?_
    rw [List.take_append_drop]
    exact hp
  have hfm := hidx.filterMap (fun i => l[i]?)
  rwa [filterMap_getElem_range] at hfm

/-- Claim C2: when `split_data` returns train and test partitions, their
concatenation is a permutation of the input rows — as a multiset of rows,
every input row occurrence lands in exactly one of the two outputs. -/
theorem split_data_partition (perm : PermSource) (data : Frame) (ts : ℚ)
    (rs : ℤ) (tr te : Frame)
    (hperm : (perm rs data.rows.length).Perm (List.range data.rows.length))
    (h : split_data perm data ts rs = some (tr, te)) :
    (tr.rows ++ te.rows).Perm data.rows := by
  simp only [split_data] at h
  split_ifs at h with h1 h2
  injection h with hpair
  injection hpair with htr hte
  subst htr hte
  exact perm_take_drop_filterMap data.rows (perm rs data.rows.length) _ hperm

/-- Claim C4: for a split fraction in (0,1), `split_data` fails exactly
when the row counts the routine allocates — ceil(test_size·n) for test and
the remainder for train — leave one of the two partitions empty. -/
theorem split_data_none_iff (perm : PermSource) (data : Frame) (ts : ℚ)
    (rs : ℤ) (h0 : 0 < ts) (h1 : ts < 1) :
    (split_data perm data ts rs = none ↔
      data.rows.length - (⌈ts * (data.rows.length : ℚ)⌉).toNat = 0 ∨
      (⌈ts * (data.rows.length : ℚ)⌉).toNat = 0) := by
  have hc : ¬(ts ≤ 0 ∨ 1 ≤ ts) := by
    push_neg
    exact ⟨h0, h1⟩
  simp only [split_data, if_neg hc]
  constructor
  · intro h
    split_ifs at h with h2
    exact Or.inl h2
  · intro h
    rcases h with h | h
    · rw [if_pos h]
    · have hn0 : data.rows.length = 0 := by
        by_contra hne
        have hpos : (0 : ℚ) < (data.rows.length : ℚ) := by
          exact_mod_cast Nat.pos_of_ne_zero hne
        have hce : 0 < ⌈ts * (data.rows.length : ℚ)⌉ :=
          Int.ceil_pos.mpr (mul_pos h0 hpos)
        omega
      rw [if_pos (by rw [hn0]; omega)]

/-- A 5-row table has a non-degenerate default split: the ceiling of n/5 is
at least 1 and at most n-1 once n ≥ 2. -/
theorem ceil_fifth_bounds (n : ℕ) (hn : 2 ≤ n) :
    0 < ⌈(1/5 : ℚ) * (n : ℚ)⌉ ∧ ⌈(1/5 : ℚ) * (n : ℚ)⌉ ≤ (n : ℤ) - 1 := by
  constructor
  · refine Int.ceil_pos.mpr (mul_pos (by norm_num) ?_)
    exact_mod_cast Nat.lt_of_lt_of_le (by norm_num) hn
  · rw [Int.ceil_le]
    have hn' : (2 : ℚ) ≤ (n : ℚ) := by exact_mod_cast hn
    push_cast
    linarith

/-- Claim C7 (amended): on a dataset of N ≥ 2 rows, the default split
(fraction 0.2, seed 42) succeeds, with ceil(0.2·N) test rows and
N − ceil(0.2·N) train rows — the rounding performed by the underlying
routine. -/
theorem split_data_default_sizes (perm : PermSource) (data : Frame)
    (hN : 2 ≤ data.rows.length)
    (hperm : (perm 42 data.rows.length).Perm (List.range data.rows.length)) :
    ∃ tr te : Frame,
      split_data perm data (1/5) 42 = some (tr, te) ∧
      te.rows.length = (⌈(1/5 : ℚ) * (data.rows.length : ℚ)⌉).toNat ∧
      tr.rows.length =
        data.rows.length - (⌈(1/5 : ℚ) * (data.rows.length : ℚ)⌉).toNat := by
  have hc : ¬((1/5 : ℚ) ≤ 0 ∨ 1 ≤ (1/5 : ℚ)) := by norm_num
  obtain ⟨hce0, hce1⟩ := ceil_fifth_bounds data.rows.length hN
  have hplen : (perm 42 data.rows.length).length = data.rows.length :=
    hperm.length_eq.trans (List.length_range _)
  have hmem : ∀ i ∈ perm 42 data.rows.length, i < data.rows.length := by
    intro i hi
    have := hperm.mem_iff.mp hi
    exact List.mem_range.mp this
  have hTestLe : (⌈(1/5 : ℚ) * (data.rows.length : ℚ)⌉).toNat <
      data.rows.length := by omega
  have hTrainNe :
      ¬(data.rows.length - (⌈(1/5 : ℚ) * (data.rows.length : ℚ)⌉).toNat
        = 0) := by omega
  simp only [split_data, if_neg hc, if_neg hTrainNe]
  refine ⟨_, _, rfl, ?_, ?_⟩
  · dsimp only
    rw [length_filterMap_getElem data.rows _
        (fun i hi => hmem i (List.mem_of_mem_take hi))]
    rw [List.length_take, hplen]
    omega
  · dsimp only
    rw [length_filterMap_getElem data.rows _
        (fun i hi => hmem i (List.mem_of_mem_drop (List.mem_of_mem_take hi)))]
    rw [List.length_take, List.length_drop, hplen]
    omega

/-- Claim C7, counterexample: on a one-row dataset the default split
(fraction 0.2, seed 42) raises instead of yielding partitions of
round(0.8·1) = 1 and round(0.2·1) rows — the test share ceil(0.2·1) = 1
leaves the train partition empty. -/
theorem split_data_default_sizes_cex :
    split_data permId frame1 (1/5) 42 = none := by
  have h1 : frame1.rows.length = 1 := rfl
  have hce : ⌈(1/5 : ℚ)⌉ = 1 := Int.ceil_eq_iff.mpr (by norm_num)
  simp only [split_data, h1]
  norm_num [hce]

/-- Claim C10: `evaluate` reads only the target column and the four
feature columns — on two datasets agreeing row for row on those five
columns it returns the same metric, whatever other columns either holds. -/
theorem evaluate_reads_only_used_columns (model : Model) (d₁ d₂ : Frame)
    (hlen : d₁.rows.length = d₂.rows.length)
    (hagree : ∀ (i : ℕ) (hi₁ : i < d₁.rows.length) (hi₂ : i < d₂.rows.length),
      ∀ c ∈ TARGET :: FEATURES, d₁.rows[i] c = d₂.rows[i] c) :
    evaluate model d₁ = evaluate model d₂ := by
  have hpred : ∀ (r₁ r₂ : Row), (∀ c ∈ TARGET :: FEATURES, r₁ c = r₂ c) →
      decide (r₁ TARGET = model (featureRow r₁)) =
        decide (r₂ TARGET = model (featureRow r₂)) := by
    intro r₁ r₂ hr
    have hT : r₁ TARGET = r₂ TARGET := hr TARGET (List.mem_cons_self _ _)
    have hF : featureRow r₁ = featureRow r₂ := by
      unfold featureRow
      exact List.map_congr_left
        (fun c hc => hr c (List.mem_cons_of_mem _ hc))
    rw [hT, hF]
  have hmap : d₁.rows.map (fun r => decide (r TARGET = model (featureRow r)))
      = d₂.rows.map (fun r => decide (r TARGET = model (featureRow r))) := by
    apply List.ext_getElem (by simpa using hlen)
    intro i hi₁ hi₂
    simp only [List.getElem_map]
    exact hpred _ _
      (hagree i (by simpa using hi₁) (by simpa using hi₂))
  have hcnt : ∀ (l : List Row),
      l.countP (fun r => decide (r TARGET = model (featureRow r))) =
        (l.map (fun r => decide (r TARGET = model (featureRow r)))).countP
          id := by
    intro l
    rw [List.countP_map]
    rfl
  rw [evaluate_eq, evaluate_eq, hcnt d₁.rows, hcnt d₂.rows, hmap, hlen]

/-- The default split of the concrete five-row dataset under the identity
permutation: one test row (ceil(5/5) = 1), four train rows. -/
theorem split5_eq :
    split_data permId frame5 (1/5) 42 = some (frame5train, frame5test) := by
  have h5 : frame5.rows.length = 5 := rfl
  simp only [split_data, h5]
  norm_num [permId]
  exact ⟨rfl, rfl⟩

/-- Witness for claim C2 at a concrete five-row dataset. -/
theorem split_data_partition_witness :
    (permId 42 frame5.rows.length).Perm (List.range frame5.rows.length) ∧
    split_data permId frame5 (1/5) 42 = some (frame5train, frame5test) ∧
    (frame5train.rows ++ frame5test.rows).Perm frame5.rows :=
  ⟨List.Perm.refl _, split5_eq,
    split_data_partition permId frame5 (1/5) 42 frame5train frame5test
      (List.Perm.refl _) split5_eq⟩

/-- Witness for claim C3 at a concrete model and five-row dataset. -/
theorem evaluate_fraction_witness :
    0 < frame5.rows.length ∧
    (0 ≤ evaluate modelK frame5 ∧ evaluate modelK frame5 ≤ 1) :=
  ⟨by decide,
    (evaluate_fraction_in_unit_interval modelK frame5 (by decide)).2⟩

/-- Witness for claim C4 at a concrete one-row dataset, where the split
fails because the train partition would be empty. -/
theorem split_data_none_iff_witness :
    ((0:ℚ) < 1/5 ∧ (1/5:ℚ) < 1) ∧
    (split_data permId frame1 (1/5) 42 = none ↔
      frame1.rows.length - (⌈(1/5 : ℚ) * (frame1.rows.length : ℚ)⌉).toNat = 0
      ∨ (⌈(1/5 : ℚ) * (frame1.rows.length : ℚ)⌉).toNat = 0) :=
  ⟨⟨by norm_num, by norm_num⟩,
    split_data_none_iff permId frame1 (1/5) 42 (by norm_num) (by norm_num)⟩

/-- Witness for claim C5 at concrete identical arguments. -/
theorem split_data_deterministic_witness :
    split_data permId frame5 (1/5) 42 = split_data permId frame5 (1/5) 42 :=
  split_data_deterministic permId frame5 frame5 (1/5) (1/5) 42 42 rfl rfl rfl

/-- Witness for claim C6 at a concrete raw table with extra columns and a
missing sex value. -/
theorem get_data_columns_witness :
    (maskedRowB ∈ (get_data frameRaw).rows ∧ TARGET ∈ TARGET :: FEATURES) ∧
    ((get_data frameRaw).cols = TARGET :: FEATURES ∧
      maskedRowB TARGET ≠ Value.na) := by
  have hrows : (get_data frameRaw).rows = [maskedRowB] := rfl
  have hmem : maskedRowB ∈ (get_data frameRaw).rows := by
    rw [hrows]
    exact List.mem_singleton.mpr rfl
  have hT : TARGET ∈ TARGET :: FEATURES := List.mem_cons_self _ _
  exact ⟨⟨hmem, hT⟩,
    ⟨(get_data_columns_and_no_missing frameRaw).1,
      (get_data_columns_and_no_missing frameRaw).2 maskedRowB hmem TARGET hT⟩⟩

/-- Witness for the amended claim C7 at the concrete five-row dataset. -/
theorem split_data_default_sizes_witness :
    (2 ≤ frame5.rows.length ∧
      (permId 42 frame5.rows.length).Perm (List.range frame5.rows.length)) ∧
    (∃ tr te : Frame,
      split_data permId frame5 (1/5) 42 = some (tr, te) ∧
      te.rows.length = (⌈(1/5 : ℚ) * (frame5.rows.length : ℚ)⌉).toNat ∧
      tr.rows.length =
        frame5.rows.length -
          (⌈(1/5 : ℚ) * (frame5.rows.length : ℚ)⌉).toNat) :=
  ⟨⟨by decide, List.Perm.refl _⟩,
    split_data_default_sizes permId frame5 (by decide) (List.Perm.refl _)⟩

/-- Witness for claim C10: the same rows with and without an extra island
column receive the same accuracy. -/
theorem evaluate_reads_only_used_columns_witness :
    frame1.rows.length = frame1extra.rows.length ∧
    evaluate modelK frame1 = evaluate modelK frame1extra := by
  have hagree : ∀ (i : ℕ) (hi₁ : i < frame1.rows.length)
      (hi₂ : i < frame1extra.rows.length),
      ∀ c ∈ TARGET :: FEATURES, frame1.rows[i] c = frame1extra.rows[i] c := by
    intro i hi₁ hi₂ c hc
    have hlen1 : frame1.rows.length = 1 := rfl
    have h0 : i = 0 := by omega
    subst h0
    fin_cases hc <;> rfl
  exact ⟨rfl,
    evaluate_reads_only_used_columns modelK frame1 frame1extra rfl hagree⟩

end FlyteIntro
